import Mathlib

/-!
Verification of the ads-async client against its design specification.

The Python sources are shallowly embedded: ctypes records become Lean
structures with natural-number fields (machine-integer truncation is made
explicit with `% 2 ^ w`), serialization becomes a function to a list of
byte values, and the stateful client objects become explicit state-passing
functions whose externally visible effects (frames sent, callbacks
submitted) are returned as lists.  Fallible paths return `Option` or
`Except`.
-/

/-! ## Wire codec: little-endian byte encodings (structs.py)

`_AdsStructBase` is a packed `ctypes.LittleEndianStructure`; each record
serializes to the concatenation of its fields, least significant byte
first, with no padding.  Field storage truncates to the field width, which
is written explicitly as `% 256`, `% 2 ^ 16`, ...
-/

/-- Little-endian byte encoding of a `c_uint16` field. -/
def u16le (n : Nat) : List Nat := [n % 256, n / 2 ^ 8 % 256]

/-- Little-endian byte encoding of a `c_uint32` field. -/
def u32le (n : Nat) : List Nat :=
  [n % 256, n / 2 ^ 8 % 256, n / 2 ^ 16 % 256, n / 2 ^ 24 % 256]

/-- Embedding of `structs.AmsNetId`: a `c_uint8 * 6` array, one field per
octet. -/
structure AmsNetId where
  b0 : Nat
  b1 : Nat
  b2 : Nat
  b3 : Nat
  b4 : Nat
  b5 : Nat
deriving DecidableEq

/-- Construction of an `AmsNetId` from six integers.  Assigning an integer
into a `c_uint8` array truncates it modulo 256 (ctypes masks silently). -/
def AmsNetId.ofOctets (a b c d e f : Nat) : AmsNetId :=
  ⟨a % 256, b % 256, c % 256, d % 256, e % 256, f % 256⟩

/-- The six octets of an `AmsNetId`, in order. -/
def AmsNetId.octetList (n : AmsNetId) : List Nat :=
  [n.b0, n.b1, n.b2, n.b3, n.b4, n.b5]

/-- Serialization of `AmsNetId`: six bytes, one per octet. -/
def AmsNetId.serialize (n : AmsNetId) : List Nat :=
  [n.b0 % 256, n.b1 % 256, n.b2 % 256, n.b3 % 256, n.b4 % 256, n.b5 % 256]

/-- Embedding of `structs.AmsAddr`: a net id followed by a `c_uint16` raw
port field (`_port`). -/
structure AmsAddr where
  net_id : AmsNetId
  port : Nat
deriving DecidableEq

/-- Serialization of `AmsAddr`: net id (6 bytes) then port (2 bytes). -/
def AmsAddr.serialize (a : AmsAddr) : List Nat :=
  a.net_id.serialize ++ u16le a.port

/-- Embedding of `structs.AoEHeader` with its raw integer fields, in the
order of `_fields_`: target, source, `_command_id` (u16), `_state_flags`
(u16), `length` (u32), `error_code` (u32), `invoke_id` (u32). -/
structure AoEHeader where
  target : AmsAddr
  source : AmsAddr
  command_id : Nat
  state_flags : Nat
  length : Nat
  error_code : Nat
  invoke_id : Nat
deriving DecidableEq

/-- Serialization of `AoEHeader`: the packed little-endian concatenation of
its fields. -/
def AoEHeader.serialize (h : AoEHeader) : List Nat :=
  h.target.serialize ++ h.source.serialize ++ u16le h.command_id ++
    u16le h.state_flags ++ u32le h.length ++ u32le h.error_code ++
    u32le h.invoke_id

/-- Embedding of `structs.AmsTcpHeader`: `reserved` (u16) then `length`
(u32). -/
structure AmsTcpHeader where
  reserved : Nat
  length : Nat
deriving DecidableEq

/-- Serialization of `AmsTcpHeader`. -/
def AmsTcpHeader.serialize (t : AmsTcpHeader) : List Nat :=
  u16le t.reserved ++ u32le t.length

/-! ## Enum-backed field properties (structs._create_enum_property)

The enum lookup `enum_cls(value)` is modelled as a partial map from raw
values to symbolic member values; `none` models the `ValueError` raised
when no member matches.  The outer `Option` of the accessors models an
uncaught `ValueError` escaping the property. -/

/-- Embedding of the `fget` closure of `_create_enum_property`: try the
enum lookup; on `ValueError`, re-raise when strict, otherwise return the
raw integer untouched. -/
def enum_property_fget (strict : Bool) (enumOf : Nat → Option Nat)
    (value : Nat) : Option (Nat ⊕ Nat) :=
  match enumOf value with
  | some e => some (Sum.inl e)
  | none => if strict then none else some (Sum.inr value)

/-- Embedding of the `fset` closure of `_create_enum_property`: when
strict, the value is validated through the enum (raising on unknown
values); the result is what gets stored into the underlying field. -/
def enum_property_fset (strict : Bool) (enumOf : Nat → Option Nat)
    (value : Nat) : Option Nat :=
  if strict then
    match enumOf value with
    | some e => some e
    | none => none
  else
    some value

/-- Embedding of writing `AmsAddr.port` (a lenient enum property over the
`c_uint16` field `_port`); the field store truncates modulo `2 ^ 16`.
`amsPortEnum` stands for the `constants.AmsPort` member table. -/
def AmsAddr.set_port (amsPortEnum : Nat → Option Nat) (a : AmsAddr)
    (v : Nat) : Option AmsAddr :=
  (enum_property_fset false amsPortEnum v).map
    (fun raw => { a with port := raw % 2 ^ 16 })

/-- Embedding of reading `AmsAddr.port` (lenient: unknown raw values are
returned untouched as `Sum.inr`). -/
def AmsAddr.get_port (amsPortEnum : Nat → Option Nat) (a : AmsAddr) :
    Option (Nat ⊕ Nat) :=
  enum_property_fget false amsPortEnum a.port

/-- C6: an `AoEHeader` serializes to exactly 32 little-endian bytes laid
out as target(8), source(8), command_id(2), state_flags(2), length(4),
error_code(4), invoke_id(4), and an `AmsTcpHeader` serializes to exactly 6
bytes laid out as reserved(2), length(4), with no padding in either
record. -/
theorem aoe_header_layout (h : AoEHeader) (t : AmsTcpHeader) :
    (h.serialize.length = 32
      ∧ h.serialize.take 8 = h.target.serialize
      ∧ (h.serialize.drop 8).take 8 = h.source.serialize
      ∧ (h.serialize.drop 16).take 2 = u16le h.command_id
      ∧ (h.serialize.drop 18).take 2 = u16le h.state_flags
      ∧ (h.serialize.drop 20).take 4 = u32le h.length
      ∧ (h.serialize.drop 24).take 4 = u32le h.error_code
      ∧ h.serialize.drop 28 = u32le h.invoke_id)
    ∧ (t.serialize.length = 6
      ∧ t.serialize.take 2 = u16le t.reserved
      ∧ t.serialize.drop 2 = u32le t.length) := by
  simp [AoEHeader.serialize, AmsTcpHeader.serialize, AmsAddr.serialize,
    AmsNetId.serialize, u16le, u32le]

/-- C7: a 16-bit port value with no matching `AmsPort` member is stored
unchanged by the lenient port setter and read back unchanged (as a raw
integer) by the lenient port getter. -/
theorem unknown_port_round_trip (amsPortEnum : Nat → Option Nat)
    (a : AmsAddr) (v : Nat) (hv : v < 2 ^ 16)
    (hunknown : amsPortEnum v = none) :
    AmsAddr.set_port amsPortEnum a v = some { a with port := v }
    ∧ AmsAddr.get_port amsPortEnum { a with port := v } =
        some (Sum.inr v) := by
  constructor
  · simp [AmsAddr.set_port, enum_property_fset]
    omega
  · simp [AmsAddr.get_port, enum_property_fget, hunknown]

/-- Witness for C7 at a concrete unknown port value. -/
theorem unknown_port_round_trip_witness :
    AmsAddr.set_port (fun _ => none) ⟨⟨1, 2, 3, 4, 5, 6⟩, 0⟩ 40000 =
      some ⟨⟨1, 2, 3, 4, 5, 6⟩, 40000⟩
    ∧ AmsAddr.get_port (fun _ => none) ⟨⟨1, 2, 3, 4, 5, 6⟩, 40000⟩ =
        some (Sum.inr 40000) :=
  unknown_port_round_trip (fun _ => none) ⟨⟨1, 2, 3, 4, 5, 6⟩, 0⟩ 40000
    (by decide) rfl

/-! ## AmsNetId string parsing and formatting (structs.AmsNetId)

Strings are modelled as lists of characters.  `AmsNetId.from_string` does
`addr.split(".")` (modelled by `List.splitOn`), converts each part with
`int(...)` (modelled for plain digit strings, on which Python agrees), and
requires exactly six parts; `AmsNetId.__repr__` joins `str(octet)` with
dots.  `str` is modelled on values below 1000, which covers every value a
`c_uint8` octet can take. -/

/-- Whether a character is a decimal digit. -/
def isDigitChar (c : Char) : Bool := 48 ≤ c.toNat && c.toNat ≤ 57

/-- Numeric value of a digit character. -/
def charToDigit (c : Char) : Nat := c.toNat - 48

/-- The character for a single decimal digit. -/
def digitToChar (d : Nat) : Char := Char.ofNat (48 + d)

/-- Value of a digit string, most significant digit first. -/
def parseDigits (cs : List Char) : Nat :=
  cs.foldl (fun a c => 10 * a + charToDigit c) 0

/-- Embedding of Python `int(...)` restricted to plain digit strings;
`none` models the `ValueError` raised on a non-numeric part. -/
def parseDecimal (cs : List Char) : Option Nat :=
  if !cs.isEmpty && cs.all isDigitChar then some (parseDigits cs) else none

/-- Conversion of every dot-separated part with `int`; the first failing
part aborts the whole conversion (the generator raises inside `tuple`). -/
def parseParts : List (List Char) → Option (List Nat)
  | [] => some []
  | p :: ps =>
    match parseDecimal p, parseParts ps with
    | some v, some vs => some (v :: vs)
    | _, _ => none

/-- Embedding of `AmsNetId.from_string`: split on dots, convert each part
with `int`, require exactly six parts, then build the `c_uint8 * 6` array
(whose stores truncate modulo 256). -/
def from_string (s : List Char) : Option AmsNetId :=
  match parseParts (s.splitOn '.') with
  | some [a, b, c, d, e, f] => some (AmsNetId.ofOctets a b c d e f)
  | _ => none

/-- Embedding of Python `str` on a natural number below 1000 (the only
values formatted here are single bytes). -/
def natToChars (n : Nat) : List Char :=
  if n < 10 then [digitToChar n]
  else if n < 100 then [digitToChar (n / 10), digitToChar (n % 10)]
  else [digitToChar (n / 100), digitToChar (n / 10 % 10), digitToChar (n % 10)]

/-- Embedding of `AmsNetId.__repr__`: join the decimal octets with dots. -/
def AmsNetId.reprStr (n : AmsNetId) : List Char :=
  List.intercalate ['.'] (n.octetList.map natToChars)

theorem charToDigit_digitToChar {d : Nat} (h : d < 10) :
    charToDigit (digitToChar d) = d := by
  interval_cases d <;> decide

theorem isDigitChar_digitToChar {d : Nat} (h : d < 10) :
    isDigitChar (digitToChar d) = true := by
  interval_cases d <;> decide

theorem digitToChar_ne_dot {d : Nat} (h : d < 10) : digitToChar d ≠ '.' := by
  interval_cases d <;> decide

theorem dot_not_mem_natToChars {n : Nat} (h : n < 1000) :
    '.' ∉ natToChars n := by
  unfold natToChars
  intro hc
  by_cases h10 : n < 10
  · simp [h10] at hc
    exact digitToChar_ne_dot h10 hc.symm
  · by_cases h100 : n < 100
    · simp [h10, h100] at hc
      rcases hc with hc | hc
      · exact digitToChar_ne_dot (by omega) hc.symm
      · exact digitToChar_ne_dot (by omega) hc.symm
    · simp [h10, h100] at hc
      rcases hc with hc | hc | hc
      · exact digitToChar_ne_dot (by omega) hc.symm
      · exact digitToChar_ne_dot (by omega) hc.symm
      · exact digitToChar_ne_dot (by omega) hc.symm

theorem parseDecimal_natToChars {n : Nat} (h : n < 1000) :
    parseDecimal (natToChars n) = some n := by
  unfold parseDecimal natToChars
  by_cases h10 : n < 10
  · simp [h10, isDigitChar_digitToChar h10, parseDigits,
      charToDigit_digitToChar h10]
  · by_cases h100 : n < 100
    · have hq : n / 10 < 10 := by omega
      have hr : n % 10 < 10 := by omega
      simp [h10, h100, isDigitChar_digitToChar hq, isDigitChar_digitToChar hr,
        parseDigits, charToDigit_digitToChar hq, charToDigit_digitToChar hr]
      omega
    · have h1 : n / 100 < 10 := by omega
      have h2 : n / 10 % 10 < 10 := by omega
      have h3 : n % 10 < 10 := by omega
      simp [h10, h100, isDigitChar_digitToChar h1, isDigitChar_digitToChar h2,
        isDigitChar_digitToChar h3, parseDigits, charToDigit_digitToChar h1,
        charToDigit_digitToChar h2, charToDigit_digitToChar h3]
      omega

theorem parseParts_map_natToChars (parts : List Nat)
    (h : ∀ p ∈ parts, p < 1000) :
    parseParts (parts.map natToChars) = some parts := by
  induction parts with
  | nil => rfl
  | cons p ps ih =>
    have hp : p < 1000 := h p (by simp)
    have hps : ∀ q ∈ ps, q < 1000 := fun q hq => h q (by simp [hq])
    simp [parseParts, parseDecimal_natToChars hp, ih hps]

/-- C5: every canonical 6-part dotted string of octets parses with
`from_string` into exactly those six octets, and formatting the result
back with `__repr__` yields the original string. -/
theorem from_string_round_trip (parts : List Nat) (s : List Char)
    (hlen : parts.length = 6) (hoct : ∀ p ∈ parts, p < 256)
    (hs : s = List.intercalate ['.'] (parts.map natToChars)) :
    ∃ nid : AmsNetId, from_string s = some nid ∧ nid.octetList = parts ∧
      nid.reprStr = s := by
  subst hs
  have h1000 : ∀ p ∈ parts, p < 1000 := fun p hp => by
    have := hoct p hp; omega
  have hdot : ∀ l ∈ parts.map natToChars, '.' ∉ l := by
    intro l hl
    obtain ⟨p, hp, rfl⟩ := List.mem_map.mp hl
    exact dot_not_mem_natToChars (h1000 p hp)
  have hne : parts.map natToChars ≠ [] := by
    cases parts with
    | nil => simp at hlen
    | cons a t => simp
  have hsplit : (List.intercalate ['.'] (parts.map natToChars)).splitOn '.'
      = parts.map natToChars :=
    List.splitOn_intercalate (parts.map natToChars) '.' hdot hne
  have hpp : parseParts ((List.intercalate ['.']
      (parts.map natToChars)).splitOn '.') = some parts := by
    rw [hsplit]
    exact parseParts_map_natToChars parts h1000
  rcases parts with _ | ⟨a, _ | ⟨b, _ | ⟨c, _ | ⟨d, _ | ⟨e, _ | ⟨f, _ | ⟨g, t⟩⟩⟩⟩⟩⟩⟩ <;>
    simp only [List.length_cons, List.length_nil] at hlen <;> try omega
  have ha : a < 256 := hoct a (by simp)
  have hb : b < 256 := hoct b (by simp)
  have hc : c < 256 := hoct c (by simp)
  have hd : d < 256 := hoct d (by simp)
  have he : e < 256 := hoct e (by simp)
  have hf : f < 256 := hoct f (by simp)
  have hmask : AmsNetId.ofOctets a b c d e f = ⟨a, b, c, d, e, f⟩ := by
    unfold AmsNetId.ofOctets
    rw [Nat.mod_eq_of_lt ha, Nat.mod_eq_of_lt hb, Nat.mod_eq_of_lt hc,
      Nat.mod_eq_of_lt hd, Nat.mod_eq_of_lt he, Nat.mod_eq_of_lt hf]
  refine ⟨⟨a, b, c, d, e, f⟩, ?_, rfl, rfl⟩
  unfold from_string
  rw [hpp]
  exact congrArg some hmask

/-- Witness for C5: the scenario string parses to the octets
`[172, 21, 148, 227, 1, 1]` and formats back to itself. -/
theorem from_string_round_trip_witness :
    ∃ nid : AmsNetId,
      from_string ("172.21.148.227.1.1".toList) = some nid ∧
      nid.octetList = [172, 21, 148, 227, 1, 1] ∧
      nid.reprStr = "172.21.148.227.1.1".toList :=
  from_string_round_trip [172, 21, 148, 227, 1, 1]
    ("172.21.148.227.1.1".toList) (by decide) (by decide) (by decide)

/-! ## Connection engine (asyncio/client.py)

The asyncio client is embedded as explicit state passing: `send` and
`_handle_command` become functions on a connection state, returning the
externally visible effects.  `protocol.Client` (not among the provided
sources) contributes only the monotonically assigned invocation id, which
is modelled from the spec.  `constants.AdsError.NOERR` (constants.py is
likewise not among the provided sources) is modelled from the spec as the
result code 0, matching the scenario wording "non-zero result code". -/

/-- Modelled from the spec: `constants.AdsError` result codes, with
`NOERR` ("no error") being zero. -/
abbrev AdsError := Nat

/-- Modelled from the spec: the "no error" result code. -/
def NOERR : AdsError := 0

/-- Embedding of `_BlockingRequest` with exactly the attributes its
methods ever assign besides the constructor arguments: `header` and
`response`, both `None` until `got_response` runs. -/
structure BlockingRequest (R : Type) where
  header : Option AoEHeader
  response : Option R
deriving DecidableEq

/-- A fresh `_BlockingRequest` as built by `__init__`. -/
def BlockingRequest.init (R : Type) : BlockingRequest R := ⟨none, none⟩

/-- Embedding of `_BlockingRequest.got_response`, the response handler that
`__aenter__` registers with `send`. -/
def BlockingRequest.got_response (req : BlockingRequest R) (h : AoEHeader)
    (r : R) : BlockingRequest R :=
  { req with header := some h, response := some r }

/-- Embedding of `getattr(req, "result", None)` in `write_and_read`:
neither `_BlockingRequest.__init__` nor any of its methods ever assigns an
attribute named `result` (only `owner`, `request`, `options`, `_event`,
`header` and `response` exist), so the lookup always falls back to the
default `None`. -/
def BlockingRequest.getattr_result (_req : BlockingRequest R) :
    Option AdsError :=
  none

/-- Embedding of `AsyncioClient.write_and_read` from the point where the
registered handler has been fed the inbound frame `(h, r)` and `wait` has
returned: `result` is fetched with `getattr`, the failure check is
`result is not None and result != AdsError.NOERR`, and otherwise
`req.response` is returned. -/
def write_and_read (h : AoEHeader) (r : R) : Except Unit (Option R) :=
  let req := (BlockingRequest.init R).got_response h r
  let result := req.getattr_result
  if result ≠ none ∧ result ≠ some NOERR then
    Except.error ()
  else
    Except.ok req.response

/-- Embedding of `structs.AoEResponseHeader`: a single `result` field, the
embedded protocol result code of a response payload. -/
structure AoEResponseHeader where
  result : AdsError
deriving DecidableEq

/-- A concrete AoE response header for evaluating the client at a
device-info response whose result code is non-zero (0x0745). -/
def failingAoEHeader : AoEHeader :=
  { target := ⟨⟨172, 21, 148, 164, 1, 1⟩, 851⟩
    source := ⟨⟨172, 21, 148, 227, 1, 1⟩, 10000⟩
    command_id := 1
    state_flags := 5
    length := 4
    error_code := 0
    invoke_id := 1 }

/-- C1: the code, evaluated at a response whose embedded result code is
0x0745 (not "no error"): `write_and_read` does not raise `FailureResponse`
and hands the record back to the caller, because `getattr(req, "result",
None)` is always `None` (the attribute is never assigned), so the
`result is not None` guard never passes.  This contradicts the claim that
a non-zero embedded result code raises `RequestFailed`. -/
theorem write_and_read_ignores_error_code :
    write_and_read failingAoEHeader (AoEResponseHeader.mk 1861) =
      Except.ok (some (AoEResponseHeader.mk 1861)) := rfl

/-- Connection-engine state relevant to response-handler bookkeeping:
`_response_handlers` is a `defaultdict(list)` mapping an invocation id to
the handlers registered against it (handlers are identified by a number),
and the next invocation id is assigned monotonically (modelled from the
spec; `protocol.Client.request_to_wire` is not among the provided
sources). -/
structure ConnState where
  response_handlers : List (Nat × List Nat)
  next_invoke_id : Nat
deriving DecidableEq

/-- Embedding of `self._response_handlers.get(invoke_id, [])`. -/
def lookup_handlers (tbl : List (Nat × List Nat)) (invoke_id : Nat) :
    List Nat :=
  match tbl.find? (fun e => e.1 == invoke_id) with
  | some e => e.2
  | none => []

/-- Embedding of `self._response_handlers[invoke_id].append(handler)` on a
`defaultdict(list)`: appends to the existing entry, or creates one. -/
def register_handler (tbl : List (Nat × List Nat)) (invoke_id h : Nat) :
    List (Nat × List Nat) :=
  match tbl.find? (fun e => e.1 == invoke_id) with
  | some _ =>
    tbl.map (fun e => if e.1 == invoke_id then (e.1, e.2 ++ [h]) else e)
  | none => tbl ++ [(invoke_id, [h])]

/-- Embedding of `AsyncioClient.send`: obtain the next invocation id from
the protocol layer, register the optional response handler against it, and
return the id. -/
def ConnState.send (st : ConnState) (handler : Option Nat) :
    Nat × ConnState :=
  let invoke_id := st.next_invoke_id
  let tbl :=
    match handler with
    | some h => register_handler st.response_handlers invoke_id h
    | none => st.response_handlers
  (invoke_id, { response_handlers := tbl, next_invoke_id := invoke_id + 1 })

/-- Embedding of `AsyncioClient._handle_command` for an inbound frame
carrying `invoke_id`: the handlers are read with
`self._response_handlers.get(header.invoke_id, [])` and each is awaited;
no statement in `_handle_command` (or anywhere else in the client) removes
them, so the table is returned unchanged.  The generic
`client.handle_command` path only logs and does not touch the table. -/
def ConnState.handle_command (st : ConnState) (invoke_id : Nat) :
    List Nat × ConnState :=
  (lookup_handlers st.response_handlers invoke_id, st)

/-- Dispatching a list of inbound frames in arrival order, collecting the
handlers invoked for each frame. -/
def ConnState.dispatch_list (st : ConnState) : List Nat →
    List (List Nat) × ConnState
  | [] => ([], st)
  | invoke_id :: rest =>
    let p := st.handle_command invoke_id
    let q := p.2.dispatch_list rest
    (p.1 :: q.1, q.2)

/-- C2 counterexample: after `send` registers handler 7 and a first frame
with the returned invocation id has been dispatched (invoking the handler
once), a second frame with the same invocation id invokes the handler
again, and the handler is still in the table afterwards — handlers are not
one-shot and are never discarded. -/
theorem response_handler_not_one_shot :
    (((ConnState.mk [] 0).send (some 7)).2.handle_command
        ((ConnState.mk [] 0).send (some 7)).1).1 = [7]
    ∧ ((((ConnState.mk [] 0).send (some 7)).2.handle_command
        ((ConnState.mk [] 0).send (some 7)).1).2.handle_command
        ((ConnState.mk [] 0).send (some 7)).1).1 = [7]
    ∧ lookup_handlers
        ((((ConnState.mk [] 0).send (some 7)).2.handle_command
          ((ConnState.mk [] 0).send (some 7)).1).2.handle_command
          ((ConnState.mk [] 0).send (some 7)).1).2.response_handlers
        ((ConnState.mk [] 0).send (some 7)).1 = [7] := by
  decide
theorem lookup_handlers_cons_ne (e : Nat × List Nat)
    (tbl : List (Nat × List Nat)) (invoke_id : Nat)
    (he : (e.1 == invoke_id) = false) :
    lookup_handlers (e :: tbl) invoke_id = lookup_handlers tbl invoke_id := by
  unfold lookup_handlers
  rw [List.find?_cons_of_neg]
  simp [he]

theorem lookup_register (tbl : List (Nat × List Nat)) (invoke_id h : Nat)
    (hfresh : lookup_handlers tbl invoke_id = []) :
    lookup_handlers (register_handler tbl invoke_id h) invoke_id = [h] := by
  induction tbl with
  | nil => simp [lookup_handlers, register_handler]
  | cons e rest ih =>
    by_cases he : (e.1 == invoke_id) = true
    · have hfind : (e :: rest).find? (fun x => x.1 == invoke_id) = some e :=
        List.find?_cons_of_pos rest he
      have he2 : e.2 = [] := by
        unfold lookup_handlers at hfresh
        rw [hfind] at hfresh
        exact hfresh
      unfold register_handler
      rw [hfind]
      unfold lookup_handlers
      simp only [List.map_cons, if_pos he]
      have hfind2 : List.find? (fun x => x.1 == invoke_id)
          ((e.1, e.2 ++ [h]) :: List.map
            (fun x => if (x.1 == invoke_id) = true then
              (x.1, x.2 ++ [h]) else x) rest) = some (e.1, e.2 ++ [h]) :=
        List.find?_cons_of_pos _ he
      rw [hfind2]
      simp [he2]
    · have he' : (e.1 == invoke_id) = false := by
        simpa using he
      have hfind : (e :: rest).find? (fun x => x.1 == invoke_id) =
          rest.find? (fun x => x.1 == invoke_id) :=
        List.find?_cons_of_neg rest he
      have hfresh' : lookup_handlers rest invoke_id = [] := by
        rw [← lookup_handlers_cons_ne e rest invoke_id he']
        exact hfresh
      have ihrest := ih hfresh'
      unfold register_handler at ihrest ⊢
      rw [hfind]
      cases hrest : rest.find? (fun x => x.1 == invoke_id) with
      | none =>
        rw [hrest] at ihrest
        rw [List.cons_append]
        rw [lookup_handlers_cons_ne _ _ _ he']
        exact ihrest
      | some f =>
        rw [hrest] at ihrest
        simp only [List.map_cons, if_neg he]
        rw [lookup_handlers_cons_ne _ _ _ he']
        exact ihrest

theorem dispatch_list_map (st : ConnState) (ids : List Nat) :
    st.dispatch_list ids =
      (ids.map (fun i => lookup_handlers st.response_handlers i), st) := by
  induction ids with
  | nil => rfl
  | cons i rest ih =>
    simp [ConnState.dispatch_list, ConnState.handle_command, ih]

/-- C2 (amended): a response handler registered by `send` against a fresh
invocation id is invoked once per inbound frame carrying that id — `n`
frames produce `n` invocations of exactly that handler — and dispatch
never removes it from the pending-handler table (the state after `n`
dispatches is the state right after `send`). -/
theorem response_handler_invoked_every_frame (st : ConnState) (h n : Nat)
    (hfresh : lookup_handlers st.response_handlers st.next_invoke_id = []) :
    ((st.send (some h)).2.dispatch_list
        (List.replicate n (st.send (some h)).1)).1 =
      List.replicate n [h]
    ∧ ((st.send (some h)).2.dispatch_list
        (List.replicate n (st.send (some h)).1)).2 = (st.send (some h)).2 := by
  have hid : (st.send (some h)).1 = st.next_invoke_id := rfl
  have htbl : (st.send (some h)).2.response_handlers =
      register_handler st.response_handlers st.next_invoke_id h := rfl
  have hreg := lookup_register st.response_handlers st.next_invoke_id h hfresh
  rw [dispatch_list_map]
  refine ⟨?_, rfl⟩
  rw [List.map_replicate, hid, htbl, hreg]

/-- Witness for the amended C2 at a concrete connection state with two
inbound frames for the same invocation id. -/
theorem response_handler_invoked_every_frame_witness :
    (((ConnState.mk [] 0).send (some 7)).2.dispatch_list
        (List.replicate 2 ((ConnState.mk [] 0).send (some 7)).1)).1 =
      List.replicate 2 [7]
    ∧ (((ConnState.mk [] 0).send (some 7)).2.dispatch_list
        (List.replicate 2 ((ConnState.mk [] 0).send (some 7)).1)).2 =
      ((ConnState.mk [] 0).send (some 7)).2 :=
  response_handler_invoked_every_frame (ConnState.mk [] 0) 7 2 (by decide)

/-! ## Notification engine (asyncio/client.py, class Notification)

`utils.CallbackHandler`, the base class, is not among the provided
sources; its callback bookkeeping is modelled from the spec: a
reference-counted set of callbacks keyed by integer tokens
(`addCallback(fn)` registers `fn` and returns a token, `removeCallback`
deregisters by token).  The callback dispatcher collaborator
(`user_callback_executor.submit`) is modelled by recording the submitted
calls.  Callbacks are identified by numbers. -/

/-- The (header, timestamp, sample) payload dictionary cached in
`most_recent_notification` and handed to callbacks. -/
structure NotificationData where
  header : Nat
  timestamp : Nat
  sample : Nat
deriving DecidableEq

/-- The add-notification command built by
`protocol.Client.add_notification_by_index` (modelled from the spec as the
factory parameters it was given; protocol.py is not among the provided
sources). -/
structure AddNotifCommand where
  index_group : Nat
  index_offset : Nat
  length : Nat
  mode : Nat
  max_delay : Nat
  cycle_time : Nat
deriving DecidableEq

/-- A command frame sent to the connection owner. -/
inductive ClientCommand where
  | addNotification (cmd : AddNotifCommand)
  | removeNotification (handle : Nat)
deriving DecidableEq

/-- Modelled from the spec: `structs.AoENotificationHandleResponse`, the
notification-handle-confirmation response carrying a result code and the
server-assigned handle (it is referenced by the client but not defined in
the provided portion of structs.py). -/
structure AoENotificationHandleResponse where
  result : AdsError
  handle : Nat
deriving DecidableEq

/-- State of one `Notification` object: the server-assigned handle
(`None` until confirmed), the registered callbacks as token/function
pairs with the next token (modelled from the spec for
`utils.CallbackHandler`), the cached most recent sample, and the
add-notification command used to (re)establish the subscription. -/
structure NotifState where
  handle : Option Nat
  callbacks : List (Nat × Nat)
  next_token : Nat
  most_recent_notification : Option NotificationData
  command : AddNotifCommand
deriving DecidableEq

/-- Externally visible effects of a notification operation: command frames
sent to the connection owner, and callback invocations submitted to the
callback dispatcher (callback function paired with the delivered data). -/
structure NotifEffects where
  sent : List ClientCommand
  submitted : List (Nat × NotificationData)
deriving DecidableEq

/-- Embedding of `Notification.__init__` as called by
`AsyncioClient.add_notification_by_index`: `handle=None`, no callbacks, no
cached sample, and the add-notification command to use on subscribe. -/
def Notification.init (cmd : AddNotifCommand) : NotifState :=
  { handle := none
    callbacks := []
    next_token := 0
    most_recent_notification := none
    command := cmd }

/-- Embedding of `AsyncioClient.add_notification_by_index`: builds the
add-notification command from the given parameters and wraps it in a
fresh `Notification`. -/
def add_notification_by_index (index_group index_offset length mode
    max_delay cycle_time : Nat) : NotifState :=
  Notification.init
    ⟨index_group, index_offset, length, mode, max_delay, cycle_time⟩

/-- Embedding of `Notification._subscribe`: submit a send of
`self.command` with `self._response_handler` attached; the notification
state itself is not modified. -/
def Notification.subscribe (st : NotifState) : List ClientCommand :=
  [ClientCommand.addNotification st.command]

/-- Embedding of `Notification._response_handler`: on a response whose
result is `NOERR` the server-assigned handle is recorded; on any other
result the state is left unchanged (only a debug line is logged). -/
def Notification.response_handler (st : NotifState)
    (resp : AoENotificationHandleResponse) : NotifState :=
  if resp.result = NOERR then { st with handle := some resp.handle } else st

/-- Embedding of `Notification.add_callback`: register the callback under
a fresh token; if the set was empty, subscribe; otherwise deliver the
cached most recent sample (when one exists) to the new callback via the
dispatcher. -/
def Notification.add_callback (st : NotifState) (f : Nat) :
    (Nat × NotifState) × NotifEffects :=
  let was_empty := st.callbacks.isEmpty
  let cb_id := st.next_token
  let st1 := { st with
    callbacks := st.callbacks ++ [(cb_id, f)]
    next_token := st.next_token + 1 }
  let mrn := st.most_recent_notification
  if was_empty then
    ((cb_id, st1), ⟨Notification.subscribe st, []⟩)
  else
    match mrn with
    | some m => ((cb_id, st1), ⟨[], [(f, m)]⟩)
    | none => ((cb_id, st1), ⟨[], []⟩)

/-- Embedding of `Notification._unsubscribe`: if no handle is assigned,
return immediately; otherwise save the handle into a local, clear
`self.handle` and the cached sample, and then — mirroring the source —
test `self.handle is not None` (which has just been set to `None`, so the
guard is never taken) before sending the remove-notification command. -/
def Notification.unsubscribe (st : NotifState) :
    NotifState × List ClientCommand :=
  match st.handle with
  | none => (st, [])
  | some h =>
    let st1 := { st with
      handle := none
      most_recent_notification := none }
    if st1.handle.isSome then (st1, [ClientCommand.removeNotification h])
    else (st1, [])

/-- Embedding of `Notification.remove_callback`: deregister the token; if
the set became empty, run `_unsubscribe` and clear the cached sample. -/
def Notification.remove_callback (st : NotifState) (token : Nat) :
    NotifState × List ClientCommand :=
  let st1 := { st with
    callbacks := st.callbacks.filter (fun e => e.1 ≠ token) }
  if st1.callbacks.isEmpty then
    let p := Notification.unsubscribe st1
    ({ p.1 with most_recent_notification := none }, p.2)
  else (st1, [])

/-- C3: the code, evaluated at a `Notification` whose server handle 42 is
assigned, holding one callback (token 0) and a cached sample: removing
that last callback sends no remove-notification command at all — the
source guards the send with `self.handle is not None` immediately after
setting `self.handle = None`, so the unsubscribe frame claimed by the spec
(exactly one for handle 42) is never issued.  The cached sample and the
handle are cleared as claimed. -/
theorem remove_last_callback_sends_nothing :
    Notification.remove_callback
      { handle := some 42
        callbacks := [(0, 5)]
        next_token := 1
        most_recent_notification := some ⟨1, 2, 3⟩
        command := ⟨1, 65535, 255, 0, 1, 100⟩ } 0 =
      ({ handle := none
         callbacks := []
         next_token := 1
         most_recent_notification := none
         command := ⟨1, 65535, 255, 0, 1, 100⟩ }, []) := by
  decide

/-- C4: a `Notification` created by `add_notification_by_index` has no
handle; it still has none after the first `add_callback` (which only
issues the subscribe command); the response handler assigns the handle
carried in a response exactly when the result in that response is "no
error",
and leaves the current handle (still `None` while unconfirmed) untouched
on any other result. -/
theorem notification_handle_lifecycle (index_group index_offset length mode
    max_delay cycle_time f : Nat) (st : NotifState)
    (resp : AoENotificationHandleResponse) :
    (add_notification_by_index index_group index_offset length mode
        max_delay cycle_time).handle = none
    ∧ (Notification.add_callback (add_notification_by_index index_group
        index_offset length mode max_delay cycle_time) f).1.2.handle = none
    ∧ (Notification.add_callback (add_notification_by_index index_group
        index_offset length mode max_delay cycle_time) f).2.sent =
        [ClientCommand.addNotification
          ⟨index_group, index_offset, length, mode, max_delay, cycle_time⟩]
    ∧ (Notification.response_handler st resp).handle =
        (if resp.result = NOERR then some resp.handle else st.handle) := by
  refine ⟨rfl, rfl, rfl, ?_⟩
  unfold Notification.response_handler
  by_cases hres : resp.result = NOERR
  · simp [hres]
  · simp [hres]

/-- C8: a callback added to a `Notification` whose callback set is
non-empty and whose cached most recent sample exists is submitted to the
callback dispatcher exactly once, immediately, with that cached sample,
and no subscribe frame is sent; a callback added to an empty set gets no
cached delivery and a subscribe frame is issued instead. -/
theorem add_callback_cached_delivery (st st2 : NotifState) (f g : Nat)
    (m : NotificationData) (hne : st.callbacks ≠ [])
    (hmrn : st.most_recent_notification = some m)
    (hempty : st2.callbacks = []) :
    (Notification.add_callback st f).2 = ⟨[], [(f, m)]⟩
    ∧ (Notification.add_callback st2 g).2 =
        ⟨[ClientCommand.addNotification st2.command], []⟩ := by
  constructor
  · have hb : st.callbacks.isEmpty = false := by
      cases hcb : st.callbacks with
      | nil => exact absurd hcb hne
      | cons a t => rfl
    unfold Notification.add_callback
    rw [hb, hmrn]
    rfl
  · have hb2 : st2.callbacks.isEmpty = true := by
      rw [hempty]
      rfl
    unfold Notification.add_callback
    rw [hb2]
    rfl

/-- Witness for C8 at a concrete subscribed notification with a cached
sample and a concrete fresh notification. -/
theorem add_callback_cached_delivery_witness :
    (Notification.add_callback (NotifState.mk (some 1) [(0, 3)] 1
        (some ⟨7, 8, 9⟩) ⟨1, 65535, 255, 0, 1, 100⟩) 4).2 =
      ⟨[], [(4, ⟨7, 8, 9⟩)]⟩
    ∧ (Notification.add_callback (NotifState.mk none [] 0 none
        ⟨1, 65535, 255, 0, 1, 100⟩) 4).2 =
      ⟨[ClientCommand.addNotification ⟨1, 65535, 255, 0, 1, 100⟩], []⟩ :=
  add_callback_cached_delivery
    (NotifState.mk (some 1) [(0, 3)] 1 (some ⟨7, 8, 9⟩)
      ⟨1, 65535, 255, 0, 1, 100⟩)
    (NotifState.mk none [] 0 none ⟨1, 65535, 255, 0, 1, 100⟩)
    4 4 ⟨7, 8, 9⟩ (by decide) rfl rfl

/-! ## Symbol cache (asyncio/client.py, AsyncioClient.get_symbol_by_name)

Python object identity is modelled by tagging each `Symbol` allocation
with a fresh number: two symbols are the same instance exactly when they
are equal in the model. -/

/-- A `Symbol` instance: allocation tag (object identity) plus the name it
was constructed with. -/
structure SymbolObj where
  sym_id : Nat
  name : String
deriving DecidableEq

/-- The per-connection symbol cache `self._symbols` plus the allocation
counter for fresh instances. -/
structure SymbolCache where
  symbols : List (String × SymbolObj)
  next_sym_id : Nat
deriving DecidableEq

/-- Embedding of `self._symbols[name]` lookup (raising `KeyError` as
`none`). -/
def SymbolCache.lookup (c : SymbolCache) (name : String) : Option SymbolObj :=
  match c.symbols.find? (fun e => e.1 == name) with
  | some e => some e.2
  | none => none

/-- Embedding of `AsyncioClient.get_symbol_by_name`: return the cached
instance, or construct `Symbol(self, name=name)`, cache it and return
it. -/
def get_symbol_by_name (c : SymbolCache) (name : String) :
    SymbolObj × SymbolCache :=
  match c.lookup name with
  | some sym => (sym, c)
  | none =>
    let sym : SymbolObj := ⟨c.next_sym_id, name⟩
    (sym, ⟨c.symbols ++ [(name, sym)], c.next_sym_id + 1⟩)

theorem lookup_after_insert (c : SymbolCache) (name : String)
    (hmiss : c.lookup name = none) :
    SymbolCache.lookup ⟨c.symbols ++ [(name, ⟨c.next_sym_id, name⟩)],
      c.next_sym_id + 1⟩ name = some ⟨c.next_sym_id, name⟩ := by
  unfold SymbolCache.lookup at hmiss ⊢
  cases hfind : c.symbols.find? (fun e => e.1 == name) with
  | some e => rw [hfind] at hmiss; exact absurd hmiss (by simp)
  | none =>
    rw [List.find?_append, hfind]
    simp

/-- C9: calling `get_symbol_by_name` twice with the same name on the same
connection returns the same `Symbol` instance, and the second call does
not change the cache (insert on first lookup, cached instance on every
repeated lookup). -/
theorem get_symbol_by_name_cached (c : SymbolCache) (name : String) :
    get_symbol_by_name (get_symbol_by_name c name).2 name =
      ((get_symbol_by_name c name).1, (get_symbol_by_name c name).2) := by
  cases hl : c.lookup name with
  | some sym =>
    have h1 : get_symbol_by_name c name = (sym, c) := by
      unfold get_symbol_by_name
      rw [hl]
    rw [h1]
    exact h1
  | none =>
    have h1 : get_symbol_by_name c name =
        (⟨c.next_sym_id, name⟩,
          ⟨c.symbols ++ [(name, ⟨c.next_sym_id, name⟩)],
            c.next_sym_id + 1⟩) := by
      unfold get_symbol_by_name
      rw [hl]
    have h2 := lookup_after_insert c name hl
    rw [h1]
    unfold get_symbol_by_name
    rw [h2]

/-! ## Client close path (asyncio/client.py, AsyncioClient.close)

`close` sets `reconnect_rate = None`, releases every cached symbol,
clears the symbol cache, and then closes the writer inside a
`try/except OSError`.  The `writer` attribute is assigned only inside the
`_connect` loop after `asyncio.open_connection` succeeds, so on a client
that never completed a connection attempt the accesses `self.writer`
raise `AttributeError`, which `except OSError` does not catch.  Python
exceptions are modelled with an explicit error type and the visible
side effects as an ordered action trace. -/

/-- The Python exception classes relevant to the close path. -/
inductive PyError where
  | attributeError
  | osError
deriving DecidableEq

/-- Observable actions performed by `close`, in program order. -/
inductive CloseAction where
  | releasedHandle (h : Nat)
  | clearedSymbols
  | closedWriter
deriving DecidableEq

/-- Client state relevant to `close`: whether the `writer` attribute has
been assigned (only `_connect` assigns it), the symbol cache with each
cached symbol with its optional acquired server handle, and the reconnect
rate. -/
structure ClientState where
  writer : Option Nat
  symbols : List (String × Option Nat)
  reconnect_rate : Option Nat
deriving DecidableEq

/-- Embedding of `Symbol.release`: with no acquired handle it does
nothing; with a handle it calls `release_handle`, which sends a frame
through `self.writer` — an `AttributeError` if the writer was never
assigned. -/
def Symbol.release (writer : Option Nat) (handle : Option Nat) :
    Except PyError (List CloseAction) :=
  match handle with
  | none => Except.ok []
  | some h =>
    match writer with
    | none => Except.error PyError.attributeError
    | some _ => Except.ok [CloseAction.releasedHandle h]

/-- The loop `for sym in self._symbols.values(): await sym.release()`. -/
def release_all (writer : Option Nat) (syms : List (String × Option Nat)) :
    Except PyError (List CloseAction) :=
  match syms with
  | [] => Except.ok []
  | (_, h) :: rest => do
    let a ← Symbol.release writer h
    let b ← release_all writer rest
    pure (a ++ b)

/-- Embedding of `AsyncioClient.close`: disable reconnection, release all
cached symbols, clear the symbol cache, then `self.writer.close()` guarded
only by `except OSError` — an unassigned `writer` attribute raises
`AttributeError`, which propagates. -/
def AsyncioClient.close (st : ClientState) :
    Except PyError (ClientState × List CloseAction) := do
  let st1 : ClientState := { st with reconnect_rate := none }
  let rel ← release_all st1.writer st1.symbols
  let st2 : ClientState := { st1 with symbols := [] }
  match st2.writer with
  | none => Except.error PyError.attributeError
  | some _ =>
    Except.ok (st2, rel ++ [CloseAction.clearedSymbols,
      CloseAction.closedWriter])

/-- The release actions of a symbol list: one per cached symbol that holds
a handle. -/
def releaseTrace (syms : List (String × Option Nat)) : List CloseAction :=
  syms.filterMap (fun e => e.2.map CloseAction.releasedHandle)

theorem release_all_cons (w : Option Nat) (s : String) (h : Option Nat)
    (rest : List (String × Option Nat)) :
    release_all w ((s, h) :: rest) =
      Except.bind (Symbol.release w h) (fun a =>
        Except.bind (release_all w rest) (fun b => Except.ok (a ++ b))) :=
  rfl

theorem release_all_none (syms : List (String × Option Nat)) :
    release_all none syms = Except.ok []
    ∨ release_all none syms = Except.error PyError.attributeError := by
  induction syms with
  | nil => exact Or.inl rfl
  | cons e rest ih =>
    obtain ⟨s, h⟩ := e
    rw [release_all_cons]
    cases h with
    | none =>
      cases ih with
      | inl hok =>
        refine Or.inl ?_
        rw [hok]
        rfl
      | inr herr =>
        refine Or.inr ?_
        rw [herr]
        rfl
    | some hh => exact Or.inr rfl

theorem release_all_some (w : Nat) (syms : List (String × Option Nat)) :
    release_all (some w) syms = Except.ok (releaseTrace syms) := by
  induction syms with
  | nil => rfl
  | cons e rest ih =>
    obtain ⟨s, h⟩ := e
    rw [release_all_cons]
    cases h with
    | none => rw [ih]; rfl
    | some hh => rw [ih]; rfl

/-- C10: closing a client whose connection never succeeded (the `writer`
attribute was never assigned) raises `AttributeError` — `close` suppresses
only `OSError` — rather than completing best-effort; and on a client with
an assigned writer, `close` completes with every cached symbol handle
released and the symbol cache emptied before the writer is closed. -/
theorem close_never_connected_raises (st st2 : ClientState) (w : Nat)
    (hnever : st.writer = none) (hconn : st2.writer = some w) :
    AsyncioClient.close st = Except.error PyError.attributeError
    ∧ AsyncioClient.close st2 =
        Except.ok ({ st2 with reconnect_rate := none, symbols := [] },
          releaseTrace st2.symbols ++
            [CloseAction.clearedSymbols, CloseAction.closedWriter]) := by
  constructor
  · unfold AsyncioClient.close
    simp only [hnever]
    cases release_all_none st.symbols with
    | inl hok => rw [hok]; rfl
    | inr herr => rw [herr]; rfl
  · unfold AsyncioClient.close
    simp only [hconn]
    rw [release_all_some w st2.symbols]
    rfl

/-- Witness for C10: a never-connected client with one unresolved cached
symbol, and a connected client with two cached symbols of which one holds
handle 3. -/
theorem close_never_connected_raises_witness :
    AsyncioClient.close ⟨none, [("a", none)], some 10⟩ =
      Except.error PyError.attributeError
    ∧ AsyncioClient.close ⟨some 0, [("a", some 3), ("b", none)], some 10⟩ =
        Except.ok (⟨some 0, [], none⟩,
          releaseTrace [("a", some 3), ("b", none)] ++
            [CloseAction.clearedSymbols, CloseAction.closedWriter]) :=
  close_never_connected_raises ⟨none, [("a", none)], some 10⟩
    ⟨some 0, [("a", some 3), ("b", none)], some 10⟩ 0 rfl rfl
